import Mathlib

/-!
# node-netezza: a verified shallow embedding of the core driver

This file embeds the core of the node-netezza driver — the handshake
negotiator, authenticator, message framer, query executor and connection
pool — as executable Lean definitions, and proves theorems about them.

Bytes are modelled as natural numbers; `Buffer` writers reduce modulo 256
exactly where the JavaScript writers truncate.  The byte stream a
`Connection` reads from its socket is modelled as a `List Nat` that the
embedded protocol functions consume from the front, mirroring the
sequential `readBytes` discipline of the source.  Messages the client
writes to the socket are returned as explicit byte lists.
-/

set_option maxRecDepth 10000

namespace NodeNetezza

/-- Big-endian 16-bit write (`Buffer.writeUInt16BE`). -/
def uint16BE (n : Nat) : List Nat := [n / 256 % 256, n % 256]

/-- Big-endian signed 32-bit write (`Buffer.writeInt32BE`): the value is
reduced modulo `2 ^ 32` and emitted most-significant byte first. -/
def int32BE (n : Int) : List Nat :=
  let m := (n % (2 ^ 32 : Int)).toNat
  [m / 2 ^ 24 % 256, m / 2 ^ 16 % 256, m / 2 ^ 8 % 256, m % 256]

/-- Big-endian signed 32-bit read (`Buffer.readInt32BE`) of the first four
bytes of a list. -/
def readInt32BE (bs : List Nat) : Int :=
  let u : Nat :=
    bs.getD 0 0 * 2 ^ 24 + bs.getD 1 0 * 2 ^ 16 + bs.getD 2 0 * 2 ^ 8 + bs.getD 3 0
  if u < 2 ^ 31 then (u : Int) else (u : Int) - 2 ^ 32

/-- Standard UTF-8 encoding of one character. -/
def utf8EncodeCharNat (c : Char) : List Nat :=
  let n := c.toNat
  if n < 0x80 then [n]
  else if n < 0x800 then [0xC0 + n / 64, 0x80 + n % 64]
  else if n < 0x10000 then [0xE0 + n / 4096, 0x80 + n / 64 % 64, 0x80 + n % 64]
  else [0xF0 + n / 262144, 0x80 + n / 4096 % 64, 0x80 + n / 64 % 64, 0x80 + n % 64]

/-- UTF-8 bytes of a string (`Buffer.from(s, 'utf8')`). -/
def utf8Bytes (s : String) : List Nat := (s.toList.map utf8EncodeCharNat).flatten

/-!
## Protocol constants

The `protocol.ts` module is exercised value-by-value by the repository's
protocol unit test, which pins every constant used below.
-/

def CP_VERSION_1 : Nat := 1
def CP_VERSION_2 : Nat := 2
def CP_VERSION_3 : Nat := 3
def CP_VERSION_4 : Nat := 4
def CP_VERSION_5 : Nat := 5
def CP_VERSION_6 : Nat := 6

def HSV2_CLIENT_BEGIN : Nat := 1
def HSV2_DB : Nat := 2
def HSV2_USER : Nat := 3
def HSV2_REMOTE_PID : Nat := 6
def HSV2_CLIENT_TYPE : Nat := 8
def HSV2_PROTOCOL : Nat := 9
def HSV2_SSL_NEGOTIATE : Nat := 11
def HSV2_SSL_CONNECT : Nat := 12
def HSV2_CLIENT_DONE : Nat := 1000

def AUTH_REQ_OK : Nat := 0
def AUTH_REQ_PASSWORD : Nat := 3
def AUTH_REQ_MD5 : Nat := 5
def AUTH_REQ_SHA256 : Nat := 6

def MESSAGE_TYPE_AUTHENTICATION : Nat := 82
def MESSAGE_TYPE_ERROR_RESPONSE : Nat := 69

/-!
## Handshake version negotiation (`Connection.negotiateHandshake`)
-/

/-- Result of handshake version negotiation. -/
inductive NegotiateResult
  | accepted (hsVersion : Int)
  | unsupportedVersion
  | badAttributeValue
  | badProtocolError
  | outOfInput
deriving DecidableEq, Repr

/-- The `while (true)` loop of `Connection.negotiateHandshake`: each round
sends `HSV2_CLIENT_BEGIN` with the proposed version and dispatches on the
server's one-byte reply; a reply of 0x4D ('M') consumes one further byte,
the ASCII digit of the downgraded version, which becomes the next
proposal unless it falls below `CP_VERSION_2`.  The first component of
the result is the list of version proposals sent, in order. -/
def negotiateLoop (version : Int) : List Nat → List Int × NegotiateResult
  | [] => ([version], .outOfInput)
  | b :: rest =>
    if b = 0x4E then ([version], .accepted version)
    else if b = 0x4D then
      match rest with
      | [] => ([version], .outOfInput)
      | d :: rest2 =>
        let v : Int := (d : Int) - 0x30
        if v < (CP_VERSION_2 : Int) then ([version], .unsupportedVersion)
        else
          let r := negotiateLoop v rest2
          (version :: r.1, r.2)
    else if b = 0x45 then ([version], .badAttributeValue)
    else ([version], .badProtocolError)

/-- `Connection.negotiateHandshake` starts the loop at `CP_VERSION_6`. -/
def negotiateHandshake (stream : List Nat) : List Int × NegotiateResult :=
  negotiateLoop (CP_VERSION_6 : Int) stream

/-!
## Security negotiation (`Connection.sendHandshakeInfo`, step 2,
and `Connection.upgradeToTLS`)
-/

/-- Read bytes up to a NUL terminator (the error-text sub-loops of
`sendHandshakeInfo` and `upgradeToTLS`); `none` when the stream ends
before the terminator. -/
def readCString : List Nat → Option (List Nat × List Nat)
  | [] => none
  | b :: rest =>
    if b = 0 then some ([], rest)
    else (readCString rest).map (fun p => (b :: p.1, p.2))

/-- Outcome of the security-negotiation step.  The three constructors
carrying server detail correspond to `InterfaceError` throws in the
source; `tlsSocketError` corresponds to the `OperationalError` raised
when the TLS-layer handshake itself fails. -/
inductive SecurityOutcome
  | proceed (upgraded : Bool) (rest : List Nat)
  | sslNegotiationError (detail : List Nat)
  | sslConnectionError (detail : List Nat)
  | unexpectedSslResponse
  | tlsSocketError
  | outOfInput
deriving DecidableEq, Repr

/-- Whether the outcome is an `InterfaceError` rejection of `connect()`. -/
def SecurityOutcome.isInterfaceError : SecurityOutcome → Bool
  | .sslNegotiationError _ => true
  | .sslConnectionError _ => true
  | .unexpectedSslResponse => true
  | _ => false

/-- The security-negotiation step of `Connection.sendHandshakeInfo`
together with `Connection.upgradeToTLS`: send `HSV2_SSL_NEGOTIATE` with
the configured level, then dispatch on the server's one-byte reply:
0x4E ('N') proceeds unencrypted, 0x53 ('S') triggers the in-place TLS
upgrade followed by the `HSV2_SSL_CONNECT` confirmation sub-exchange,
0x45 ('E') reads a NUL-terminated message and fails; any other byte falls
through silently.  `tlsOk` stands for whether the transport-level
handshake of `tls.connect` succeeds; server bytes after the upgrade are
the continuation of `stream`.  Also returns the messages sent. -/
def negotiateSecurity (securityLevel : Int) (tlsOk : Bool) (stream : List Nat) :
    SecurityOutcome × List (List Nat) :=
  let sslMessage := int32BE 10 ++ uint16BE HSV2_SSL_NEGOTIATE ++ int32BE securityLevel
  match stream with
  | [] => (.outOfInput, [sslMessage])
  | b :: rest =>
    if b = 0x4E then (.proceed false rest, [sslMessage])
    else if b = 0x53 then
      if tlsOk then
        let connectMessage :=
          int32BE 10 ++ uint16BE HSV2_SSL_CONNECT ++ int32BE securityLevel
        match rest with
        | [] => (.outOfInput, [sslMessage, connectMessage])
        | c :: rest2 =>
          if c = 0x4E then (.proceed true rest2, [sslMessage, connectMessage])
          else if c = 0x45 then
            match readCString rest2 with
            | none => (.outOfInput, [sslMessage, connectMessage])
            | some p => (.sslConnectionError p.1, [sslMessage, connectMessage])
          else (.unexpectedSslResponse, [sslMessage, connectMessage])
      else (.tlsSocketError, [sslMessage])
    else if b = 0x45 then
      match readCString rest with
      | none => (.outOfInput, [sslMessage])
      | some p => (.sslNegotiationError p.1, [sslMessage])
    else (.proceed false rest, [sslMessage])

/-!
## Authentication (`Connection.authenticate`, `Connection.waitForAuthOk`,
`Connection.md5Password`, `Connection.sha256Password`)

The digests themselves are external (`crypto.createHash`); the embedding
takes them as function parameters.  Base64 encoding (`.toString('base64')`)
is embedded concretely.
-/

def base64Alphabet : String :=
  "ABCDEFGHIJKLMNOPQRSTUVWXYZabcdefghijklmnopqrstuvwxyz0123456789+/"

def base64Char (n : Nat) : Char := base64Alphabet.toList.getD n 'A'

/-- Standard base64 of a byte list, `'='`-padded (`Buffer.toString('base64')`). -/
def base64Encode : List Nat → List Char
  | [] => []
  | [a] => [base64Char (a / 4), base64Char (a % 4 * 16), '=', '=']
  | [a, b] =>
    [base64Char (a / 4), base64Char (a % 4 * 16 + b / 16), base64Char (b % 16 * 4), '=']
  | a :: b :: c :: rest =>
    base64Char (a / 4) :: base64Char (a % 4 * 16 + b / 16) ::
      base64Char (b % 16 * 4 + c / 64) :: base64Char (c % 64) :: base64Encode rest

/-- `.replace(/=+$/, '')`: trailing `'='` padding stripped. -/
def dropEqPadding (cs : List Char) : List Char :=
  (cs.reverse.dropWhile (· = '=')).reverse

/-- `Connection.md5Password`: `base64(md5(salt ++ password))`, padding
stripped.  The source ignores its `user` argument. -/
def md5Password (md5 : List Nat → List Nat) (user password : String)
    (salt : List Nat) : List Char :=
  dropEqPadding (base64Encode (md5 (salt ++ utf8Bytes password)))

/-- `Connection.sha256Password`: identical shape with sha256. -/
def sha256Password (sha256 : List Nat → List Nat) (password : String)
    (salt : List Nat) : List Char :=
  dropEqPadding (base64Encode (sha256 (salt ++ utf8Bytes password)))

/-- `Connection.readInt32`: consume four bytes, read them signed
big-endian. -/
def readInt32 : List Nat → Option (Int × List Nat)
  | a :: b :: c :: d :: rest => some (readInt32BE [a, b, c, d], rest)
  | _ => none

/-- Outcome of the authentication exchange.  `serverError`, `authFailed`
are `OperationalError`s; `expectedAuthRequest`, `expectedAuthResponse`
and `unsupportedAuthType` are `InterfaceError`s. -/
inductive AuthOutcome
  | authOk
  | serverError (detail : List Nat)
  | expectedAuthRequest
  | expectedAuthResponse
  | authFailed
  | unsupportedAuthType (code : Int)
  | outOfInput
deriving DecidableEq, Repr

/-- `Connection.waitForAuthOk`: one more authentication message (no length
field) whose code must be exactly `AUTH_REQ_OK`. -/
def waitForAuthOk (stream : List Nat) : AuthOutcome :=
  match stream with
  | [] => .outOfInput
  | t :: rest =>
    if t ≠ MESSAGE_TYPE_AUTHENTICATION then .expectedAuthResponse
    else
      match readInt32 rest with
      | none => .outOfInput
      | some p => if p.1 ≠ (AUTH_REQ_OK : Int) then .authFailed else .authOk

/-- The credential message sent after hashing: the base64 digest, padding
stripped, NUL-terminated, behind a 4-byte length prefix counting itself. -/
def credentialMessage (digest : List Nat) : List Nat :=
  let hashBuffer := utf8Bytes (String.mk (dropEqPadding (base64Encode digest))) ++ [0]
  int32BE ((hashBuffer.length : Int) + 4) ++ hashBuffer

/-- `Connection.authenticate`: read the authentication request (special-
cased: no length field, just the type byte and a 4-byte scheme code) and
answer it.  `MD5` and `SHA256` read a 2-byte salt first.  Returns the
outcome together with the messages written to the socket. -/
def authenticate (md5 sha256 : List Nat → List Nat) (user password : String)
    (stream : List Nat) : AuthOutcome × List (List Nat) :=
  match stream with
  | [] => (.outOfInput, [])
  | t :: rest =>
    if t = MESSAGE_TYPE_ERROR_RESPONSE then
      match readInt32 rest with
      | none => (.outOfInput, [])
      | some p => (.serverError (p.2.take (p.1 - 4).toNat), [])
    else if t ≠ MESSAGE_TYPE_AUTHENTICATION then (.expectedAuthRequest, [])
    else
      match readInt32 rest with
      | none => (.outOfInput, [])
      | some p =>
        let authType := p.1
        let rest2 := p.2
        if authType = (AUTH_REQ_OK : Int) then (.authOk, [])
        else if authType = (AUTH_REQ_PASSWORD : Int) then
          let passwordBuffer := utf8Bytes password ++ [0]
          let msg := int32BE ((passwordBuffer.length : Int) + 4) ++ passwordBuffer
          (waitForAuthOk rest2, [msg])
        else if authType = (AUTH_REQ_MD5 : Int) then
          match rest2 with
          | s1 :: s2 :: rest3 =>
            let hash := md5Password md5 user password [s1, s2]
            let hashBuffer := utf8Bytes (String.mk hash) ++ [0]
            let msg := int32BE ((hashBuffer.length : Int) + 4) ++ hashBuffer
            (waitForAuthOk rest3, [msg])
          | _ => (.outOfInput, [])
        else if authType = (AUTH_REQ_SHA256 : Int) then
          match rest2 with
          | s1 :: s2 :: rest3 =>
            let hash := sha256Password sha256 password [s1, s2]
            let hashBuffer := utf8Bytes (String.mk hash) ++ [0]
            let msg := int32BE ((hashBuffer.length : Int) + 4) ++ hashBuffer
            (waitForAuthOk rest3, [msg])
          | _ => (.outOfInput, [])
        else (.unsupportedAuthType authType, [])

/-!
## Blocking exact reads (`Connection.readBytes`, `Connection.waitForData`)

The socket is modelled by the queue of events its handlers would observe:
data arrivals (which the standing `'data'` listener appends to the
internal buffer), a transport error, or a clean remote close.
-/

inductive SocketEvent
  | dataEv (chunk : List Nat)
  | errorEv (msg : String)
  | endEv
deriving DecidableEq, Repr

/-- Result of `readBytes`: `okRead` returns the bytes read, the remaining
buffer and the unconsumed events; `socketError` is the `OperationalError`
path of `waitForData`, `connectionClosed` its `ConnectionClosedError`
path on remote close; `starved` marks a read suspended forever. -/
inductive ReadOutcome
  | okRead (bytes buffer : List Nat) (events : List SocketEvent)
  | socketError (msg : String)
  | connectionClosed
  | starved
deriving DecidableEq, Repr

/-- `Connection.readBytes(count)`: loop waiting for data while the buffer
holds fewer than `count` bytes, then split off exactly the first `count`
bytes, keeping the remainder buffered. -/
def readBytes (count : Nat) (buffer : List Nat) (events : List SocketEvent) :
    ReadOutcome :=
  if buffer.length < count then
    match events with
    | [] => .starved
    | .dataEv chunk :: es => readBytes count (buffer ++ chunk) es
    | .errorEv m :: _ => .socketError ("Socket error: " ++ m)
    | .endEv :: _ => .connectionClosed
  else .okRead (buffer.take count) (buffer.drop count) events
termination_by events.length
decreasing_by simp

/-!
## Query dispatch and parameter handling (`Connection.execute`,
`Connection.executeExtended`, `Connection.sendBind`)
-/

/-- A JavaScript value passed as a query parameter, by the `typeof`
branches the source distinguishes.  `jsNull` also stands for `undefined`
(the two take the same branch everywhere).  Numbers are restricted to the
integral ones; a `Date` carries its `toISOString()` and `String()`
renderings as data; `jsOther` carries its `String()` rendering. -/
inductive JsParam
  | jsNull
  | jsStr (s : String)
  | jsNum (n : Int)
  | jsBool (b : Bool)
  | jsDate (iso str : String)
  | jsOther (str : String)
deriving DecidableEq, Repr

def singleQuote : Char := Char.ofNat 39

/-- `.replace(/'/g, "''")`: double every single quote. -/
def escapeQuotes : List Char → List Char
  | [] => []
  | c :: rest =>
    if c = singleQuote then singleQuote :: singleQuote :: escapeQuotes rest
    else c :: escapeQuotes rest

/-- The literal-rendering callback inside `Connection.execute` of the
current revision: null/undefined becomes `NULL`, strings are quoted with
doubled inner quotes, numbers and booleans are rendered bare, dates are
quoted ISO strings, anything else is quoted via `String(param)`. -/
def renderLiteral : JsParam → List Char
  | .jsNull => "NULL".toList
  | .jsStr s => singleQuote :: escapeQuotes s.toList ++ [singleQuote]
  | .jsNum n => (toString n).toList
  | .jsBool b => (if b then "TRUE" else "FALSE").toList
  | .jsDate iso _ => singleQuote :: iso.toList ++ [singleQuote]
  | .jsOther str => singleQuote :: escapeQuotes str.toList ++ [singleQuote]

/-- `sql.replace(/\?/g, cb)` with the literal callback: each `'?'` is
replaced by the rendering of the next parameter; an exhausted parameter
list yields `undefined`, rendered `NULL`. -/
def substituteLiterals (params : List JsParam) : List Char → Nat → List Char
  | [], _ => []
  | c :: rest, idx =>
    if c = '?' then
      renderLiteral (params.getD idx .jsNull) ++ substituteLiterals params rest (idx + 1)
    else c :: substituteLiterals params rest idx

/-- `sql.replace(/\?/g, () => dollar-n)` of the earlier revision: the
i-th placeholder becomes the numbered marker, counting from 1. -/
def substituteMarkers : List Char → Nat → List Char
  | [], _ => []
  | c :: rest, idx =>
    if c = '?' then
      '$' :: (toString idx).toList ++ substituteMarkers rest (idx + 1)
    else c :: substituteMarkers rest idx

/-- A frontend message of the extended sub-protocol, by content. -/
inductive WireMessage
  | parseMsg (statementName sql : List Char)
  | bindMsg (portalName statementName : List Char) (params : List JsParam)
  | describeMsg (typ : Char) (name : List Char)
  | executeMsg (portalName : List Char) (maxRows : Nat)
  | syncMsg
deriving DecidableEq, Repr

/-- What `execute` hands to the wire: either one simple query message or
the staged extended sequence. -/
inductive SentQuery
  | simpleQuery (sql : List Char)
  | extendedQuery (messages : List WireMessage)
deriving DecidableEq, Repr

def SentQuery.isExtended : SentQuery → Bool
  | .extendedQuery _ => true
  | _ => false

/-- `Connection.execute` of the current revision (the connection.ts with
`rowMode` and TLS support): when parameters are present the SQL is
rewritten with literal substitution, and the result is always sent
through the simple-query protocol (`executeSimple`). -/
def executeCurrent (sql : List Char) (params : List JsParam) : SentQuery :=
  if params.length > 0 then .simpleQuery (substituteLiterals params sql 0)
  else .simpleQuery sql

/-- The message sequence of `Connection.executeExtended`: parse, bind,
describe, execute, sync over the unnamed (empty-string) statement and
portal, zero max rows. -/
def executeExtendedMessages (sql : List Char) (params : List JsParam) :
    List WireMessage :=
  [.parseMsg [] sql, .bindMsg [] [] params, .describeMsg 'P' [],
   .executeMsg [] 0, .syncMsg]

/-- `Connection.execute` of the earlier revision (src/connection.ts):
placeholders become numbered markers, and a non-empty parameter list
routes to the staged extended protocol. -/
def executeEarlier (sql : List Char) (params : List JsParam) : SentQuery :=
  let converted := substituteMarkers sql 1
  if params.length > 0 then .extendedQuery (executeExtendedMessages converted params)
  else .simpleQuery converted

/-- `String(param)` as used by `Connection.sendBind` on a non-null
parameter. -/
def jsStringOf : JsParam → String
  | .jsNull => "null"
  | .jsStr s => s
  | .jsNum n => toString n
  | .jsBool b => if b then "true" else "false"
  | .jsDate _ str => str
  | .jsOther str => str

/-- The per-parameter encoding inside `Connection.sendBind`:
null/undefined is a 4-byte length of −1 with no payload bytes; anything
else is the UTF-8 bytes of `String(param)` behind a 4-byte length. -/
def encodeBindParam : JsParam → List Nat
  | .jsNull => int32BE (-1)
  | p =>
    let valueBuf := utf8Bytes (jsStringOf p)
    int32BE (valueBuf.length : Int) ++ valueBuf

/-!
## Row decoding (`Connection.parseDataRow`, with the name case-folding of
`Connection.parseRowDescription`)
-/

/-- Per-column metadata, as far as row decoding consumes it. -/
structure FieldDesc where
  name : String
  typeOid : Int
deriving DecidableEq, Repr

/-- The name handling of `Connection.parseRowDescription`: the column
name read off the wire is case-folded with `toLowerCase`. -/
def foldFieldName (raw : String) : String := raw.toLower

def mkFieldDesc (rawName : String) (typeOid : Int) : FieldDesc :=
  ⟨foldFieldName rawName, typeOid⟩

/-- MSB-first bits of one bitmap byte (the inner
`for (bit = 7; bit >= 0; bit--)` loop). -/
def bitsOfByte (b : Nat) : List Nat :=
  [b / 128 % 2, b / 64 % 2, b / 32 % 2, b / 16 % 2,
   b / 8 % 2, b / 4 % 2, b / 2 % 2, b % 2]

/-- The presence bitmap: the first `bitmapLen` bytes of the row payload,
expanded bit-per-column, most-significant bit first within each byte. -/
def rowBitmap (data : List Nat) (bitmapLen : Nat) : List Nat :=
  ((data.take bitmapLen).map bitsOfByte).flatten

/-- The per-column loop of `Connection.parseDataRow`: `bits` are the
bitmap entries of the columns still to decode, `dataIdx` the cursor into
`data`.  A clear bit yields null and moves no bytes; a set bit reads a
4-byte big-endian length (counting itself) and takes `length − 4` value
bytes, advancing the cursor by the whole declared length.  Returns the
raw cells and the final cursor. -/
def parseDataRowLoop (data : List Nat) : List Nat → Nat → List (Option (List Nat)) × Nat
  | [], dataIdx => ([], dataIdx)
  | bit :: bits, dataIdx =>
    if bit = 0 then
      let r := parseDataRowLoop data bits dataIdx
      (none :: r.1, r.2)
    else
      let valueLength := readInt32BE (data.drop dataIdx)
      let valueBuffer := (data.drop (dataIdx + 4)).take (valueLength - 4).toNat
      let r := parseDataRowLoop data bits (dataIdx + 4 + (valueLength - 4).toNat)
      (some valueBuffer :: r.1, r.2)

/-- The raw cells of one data row against `k` columns: `ceil(k/8)` bitmap
bytes, then the loop over the first `k` bitmap bits. -/
def parseDataRowCells (data : List Nat) (k : Nat) : List (Option (List Nat)) × Nat :=
  let bitmapLen := (k + 7) / 8
  parseDataRowLoop data ((rowBitmap data bitmapLen).take k) bitmapLen

/-- `Connection.parseDataRow` with `rowMode: 'array'`: cells in column
order, each present cell through the per-type converter.  `conv` stands
for `getTypeConverter(typeOid).decode` together with its raw-text
fallback. -/
def parseDataRowArray {α : Type} (conv : Int → List Nat → α) (data : List Nat)
    (fields : List FieldDesc) : List (Option α) :=
  let cells := (parseDataRowCells data fields.length).1
  (fields.zip cells).map (fun fc => fc.2.map (conv fc.1.typeOid))

/-- JavaScript object assignment `row[name] = v`: overwrite in place if
the key exists, else append. -/
def setObjectKey {α : Type} (row : List (String × α)) (k : String) (v : α) :
    List (String × α) :=
  match row with
  | [] => [(k, v)]
  | (k2, v2) :: rest =>
    if k2 = k then (k2, v) :: rest else (k2, v2) :: setObjectKey rest k v

/-- JavaScript property read `row[name]`. -/
def getObjectKey {α : Type} (row : List (String × α)) (k : String) : Option α :=
  match row with
  | [] => none
  | (k2, v2) :: rest => if k2 = k then some v2 else getObjectKey rest k

/-- `Connection.parseDataRow` with `rowMode: 'object'` (the default): the
same cells assigned one by one under the column names, so a later
duplicate name overwrites the earlier value. -/
def parseDataRowObject {α : Type} (conv : Int → List Nat → α) (data : List Nat)
    (fields : List FieldDesc) : List (String × Option α) :=
  let cells := (parseDataRowCells data fields.length).1
  (fields.zip cells).foldl
    (fun row fc => setObjectKey row fc.1.name (fc.2.map (conv fc.1.typeOid))) []

/-- The value the last assignment under a given key leaves behind: the
spec-side description of what the object row shape retains for a
duplicated column name. -/
def lastValueFor {α : Type} (name : String) : List (String × α) → Option α
  | [] => none
  | (k, v) :: rest =>
    match lastValueFor name rest with
    | some r => some r
    | none => if k = name then some v else none

/-!
### Wire-format witnesses for row decoding

`packBits`, `bitmapOfCells` and `encodeDataRow` build the on-wire bytes
of a row from its logical cells, following §"Row decoding" of the wire
format: they are the inverse direction used to state round-trip theorems
about the decoder above.
-/

/-- Pack bits (each 0 or 1) into bytes, most-significant bit first. -/
def packBits : List Nat → List Nat
  | b0 :: b1 :: b2 :: b3 :: b4 :: b5 :: b6 :: b7 :: rest =>
    (b0 * 128 + b1 * 64 + b2 * 32 + b3 * 16 + b4 * 8 + b5 * 4 + b6 * 2 + b7)
      :: packBits rest
  | _ => []

/-- The presence bitmap of a cell list: one bit per column, set when the
cell is present, padded with zero bits to a byte boundary. -/
def bitmapOfCells (cells : List (Option (List Nat))) : List Nat :=
  let bits := cells.map (fun c => if c.isSome then 1 else 0)
  packBits (bits ++ List.replicate ((cells.length + 7) / 8 * 8 - cells.length) 0)

/-- One encoded cell: nothing for null, else a 4-byte length counting
itself followed by the value bytes. -/
def encodeCell : Option (List Nat) → List Nat
  | none => []
  | some v => int32BE ((v.length : Int) + 4) ++ v

/-- A whole encoded data row: bitmap, then the present cells in order. -/
def encodeDataRow (cells : List (Option (List Nat))) : List Nat :=
  bitmapOfCells cells ++ (cells.map encodeCell).flatten

/-- The total number of payload bytes the declared lengths account for:
zero for a null column, the declared length (4 plus the value bytes) for
a present one. -/
def declaredLengthSum (cells : List (Option (List Nat))) : Nat :=
  (cells.map (fun c => match c with | none => 0 | some v => v.length + 4)).sum

/-!
## Connection pool (`Pool`)

Sessions and pending acquire requests are identified by natural numbers.
The maintenance and acquisition logic runs from single-threaded event
callbacks, so the pool's bookkeeping is mutated in mutually exclusive
steps; the step relation below has one case per such mutation.
-/

/-- The pool options the bookkeeping consults (constructor-validated:
`min ≤ max`, `1 ≤ max`). -/
structure PoolConfig where
  min : Nat
  max : Nat
  validateOnReturn : Bool
deriving DecidableEq, Repr

/-- `ConnectionMetadata`. -/
structure ConnMeta where
  createdAt : Nat
  lastUsedAt : Nat
  useCount : Nat
deriving DecidableEq, Repr

/-- The pool's bookkeeping: the entry map (`connections`), the available
list, the FIFO pending-acquire queue (head oldest) with the set of live
deadline timers, the closing/closed flags, and counters supplying fresh
session and request identities. -/
structure PoolState where
  connections : List (Nat × ConnMeta)
  available : List Nat
  pendingAcquires : List Nat
  timers : List Nat
  closing : Bool
  closed : Bool
  nextConn : Nat
  nextReq : Nat
deriving DecidableEq, Repr

/-- The keys of the entry map. -/
def poolKeys (st : PoolState) : List Nat := st.connections.map (·.1)

/-- `this.connections.has(connection)`. -/
def ownsConn (st : PoolState) (c : Nat) : Bool := st.connections.any (·.1 = c)

/-- Externally observable side effects of a pool operation. -/
inductive PoolAction
  | validateSession (c : Nat)
  | closeSession (c : Nat)
  | resolveAcquire (req c : Nat)
  | clearDeadline (req : Nat)
deriving DecidableEq, Repr

/-- `Pool.removeConnection`: delete the entry-map record, remove the
first available slot, close the session (close errors swallowed). -/
def removeConnection (st : PoolState) (c : Nat) : PoolState × List PoolAction :=
  ({ st with connections := st.connections.filter (fun e => e.1 ≠ c),
             available := st.available.erase c },
   [.closeSession c])

/-- Metadata touch `metadata.lastUsedAt = Date.now()`. -/
def touchLastUsed (conns : List (Nat × ConnMeta)) (c now : Nat) :
    List (Nat × ConnMeta) :=
  conns.map (fun e => if e.1 = c then (e.1, { e.2 with lastUsedAt := now }) else e)

/-- Metadata update on a successful acquire (`lastUsedAt`, `useCount++`). -/
def bumpUse (conns : List (Nat × ConnMeta)) (c now : Nat) :
    List (Nat × ConnMeta) :=
  conns.map (fun e =>
    if e.1 = c then (e.1, { e.2 with lastUsedAt := now, useCount := e.2.useCount + 1 })
    else e)

/-- How `Pool.release` ended. -/
inductive ReleaseOutcome
  | notOwnedError
  | discardedInvalid
  | resolvedPending (req : Nat)
  | returnedToAvailable
deriving DecidableEq, Repr

/-- The tail of `Pool.release` after the ownership and return-validation
gates: touch the metadata, then hand the session to the oldest pending
request (cancelling its deadline timer) or, with no pending request,
push it on the available list. -/
def releaseCore (now : Nat) (st : PoolState) (c : Nat) :
    ReleaseOutcome × PoolState × List PoolAction :=
  let st2 := { st with connections := touchLastUsed st.connections c now }
  match st2.pendingAcquires with
  | [] => (.returnedToAvailable, { st2 with available := st2.available ++ [c] }, [])
  | req :: rest =>
    (.resolvedPending req,
     { st2 with pendingAcquires := rest, timers := st2.timers.erase req },
     [.clearDeadline req, .resolveAcquire req c])

/-- `Pool.release(connection)`: reject a session the entry map does not
know; with `validateOnReturn` set, probe the session (`valid` is the
probe's verdict) and discard it on failure; otherwise run the core
hand-off.  Returns the outcome, the new state and the side effects. -/
def release (cfg : PoolConfig) (valid : Bool) (now : Nat) (st : PoolState)
    (c : Nat) : ReleaseOutcome × PoolState × List PoolAction :=
  if ¬ ownsConn st c then (.notOwnedError, st, [])
  else if cfg.validateOnReturn then
    if ¬ valid then
      let r := removeConnection st c
      (.discardedInvalid, r.1, .validateSession c :: r.2)
    else
      let r := releaseCore now st c
      (r.1, r.2.1, .validateSession c :: r.2.2)
  else releaseCore now st c

/-- `Pool.createConnection`: connect a fresh session and record its
metadata in the entry map. -/
def addFreshConnection (st : PoolState) (now : Nat) : PoolState × Nat :=
  ({ st with connections := st.connections ++ [(st.nextConn, (⟨now, now, 0⟩ : ConnMeta))],
             nextConn := st.nextConn + 1 },
   st.nextConn)

/-- `Pool.getStats()`. -/
structure PoolStats where
  total : Nat
  available : Nat
  inUse : Nat
  pending : Nat
deriving DecidableEq, Repr

def getStats (st : PoolState) : PoolStats :=
  { total := st.connections.length,
    available := st.available.length,
    inUse := st.connections.length - st.available.length,
    pending := st.pendingAcquires.length }

/-- The number of sessions currently checked out: entries of the map
absent from the available list. -/
def inUseCount (st : PoolState) : Nat :=
  ((poolKeys st).filter (fun c => c ∉ st.available)).length

/-- The pool right after construction: `initialize` created `n ≤ min`
sessions (creation failures are swallowed), all available. -/
def initPool (n : Nat) : PoolState :=
  { connections := (List.range n).map (fun i => (i, ⟨0, 0, 0⟩)),
    available := List.range n,
    pendingAcquires := [], timers := [],
    closing := false, closed := false,
    nextConn := n, nextReq := 0 }

/-- A pool snapshot together with the `createConnection` calls currently
in flight: calls whose call-site checks already passed but whose
`await conn.connect()` has not yet resolved, so the entry-map insertion
inside `createConnection` has not happened yet.  `creatingAcquire`
counts creations started by `acquire`, `creatingBackfill` those started
by the backfill sweep. -/
structure PoolWorld where
  pool : PoolState
  creatingAcquire : Nat
  creatingBackfill : Nat
deriving DecidableEq, Repr

/-- One bookkeeping mutation of the pool, at the granularity the event
loop interleaves them.  The synchronous segments of acquire, release and
eviction are single steps.  A creation is two steps: `acquireCreateBegin`
performs the `connections.size < max` check of `Pool.acquire` and starts
`createConnection`, while `acquireCreateLand` performs the entry-map
insertion (and the metadata bump) only when `await conn.connect()`
resolves, with no re-check — so the check and the insertion sit in
different event-loop turns, as in the source.  Backfill likewise checks
the deficit only at tick time (`backfillBegin`) while its insertions
land later unguarded: `backfillLandOpen` also pushes the session onto
the available list, `backfillLandClosed` keeps the entry in the map even
though the pool closed in the interim (the insertion in
`createConnection` has already happened; only the available-push is
skipped and the session closed).  A failed creation either rethrows
(`acquireCreateFailThrow`, only when the pool is empty) or falls through
to the pending-wait (`acquireCreateFailWait`); a failed backfill
creation is swallowed (`backfillFail`). -/
inductive PoolStep (cfg : PoolConfig) : PoolWorld → PoolWorld → Prop
  | acquireFromAvailable (w : PoolWorld) (c : Nat) (rest : List Nat) (now : Nat) :
      w.pool.available = c :: rest →
      PoolStep cfg w
        { w with pool :=
            { w.pool with
                available := rest,
                connections := bumpUse w.pool.connections c now } }
  | acquireBorrowInvalid (w : PoolWorld) (c : Nat) (rest : List Nat) :
      w.pool.available = c :: rest →
      PoolStep cfg w
        { w with pool := (removeConnection { w.pool with available := rest } c).1 }
  | acquireCreateBegin (w : PoolWorld) :
      w.pool.available = [] →
      w.pool.connections.length < cfg.max →
      PoolStep cfg w { w with creatingAcquire := w.creatingAcquire + 1 }
  | acquireCreateLand (w : PoolWorld) (now : Nat) :
      0 < w.creatingAcquire →
      PoolStep cfg w
        { w with
          pool :=
            (let p := addFreshConnection w.pool now
             { p.1 with connections := bumpUse p.1.connections p.2 now }),
          creatingAcquire := w.creatingAcquire - 1 }
  | acquireCreateFailThrow (w : PoolWorld) :
      0 < w.creatingAcquire →
      w.pool.available = [] →
      w.pool.connections = [] →
      PoolStep cfg w { w with creatingAcquire := w.creatingAcquire - 1 }
  | acquireCreateFailWait (w : PoolWorld) :
      0 < w.creatingAcquire →
      ¬ (w.pool.available = [] ∧ w.pool.connections = []) →
      PoolStep cfg w
        { w with
          pool :=
            { w.pool with
                pendingAcquires := w.pool.pendingAcquires ++ [w.pool.nextReq],
                timers := w.pool.timers ++ [w.pool.nextReq],
                nextReq := w.pool.nextReq + 1 },
          creatingAcquire := w.creatingAcquire - 1 }
  | acquireEnqueue (w : PoolWorld) :
      w.pool.available = [] →
      ¬ w.pool.connections.length < cfg.max →
      PoolStep cfg w
        { w with
          pool :=
            { w.pool with
                pendingAcquires := w.pool.pendingAcquires ++ [w.pool.nextReq],
                timers := w.pool.timers ++ [w.pool.nextReq],
                nextReq := w.pool.nextReq + 1 } }
  | acquireDeadline (w : PoolWorld) (req : Nat) :
      req ∈ w.pool.pendingAcquires →
      PoolStep cfg w
        { w with
          pool :=
            { w.pool with
                pendingAcquires := w.pool.pendingAcquires.erase req,
                timers := w.pool.timers.erase req } }
  | releaseStep (w : PoolWorld) (c : Nat) (valid : Bool) (now : Nat) :
      ownsConn w.pool c = true →
      c ∉ w.pool.available →
      PoolStep cfg w { w with pool := (release cfg valid now w.pool c).2.1 }
  | evictAvailable (w : PoolWorld) (c : Nat) :
      c ∈ w.pool.available →
      PoolStep cfg w { w with pool := (removeConnection w.pool c).1 }
  | backfillBegin (w : PoolWorld) :
      w.pool.connections.length < cfg.min →
      w.pool.closing = false →
      w.pool.closed = false →
      PoolStep cfg w { w with creatingBackfill := w.creatingBackfill + 1 }
  | backfillLandOpen (w : PoolWorld) (now : Nat) :
      0 < w.creatingBackfill →
      w.pool.closing = false →
      w.pool.closed = false →
      PoolStep cfg w
        { w with
          pool :=
            (let p := addFreshConnection w.pool now
             { p.1 with available := p.1.available ++ [p.2] }),
          creatingBackfill := w.creatingBackfill - 1 }
  | backfillLandClosed (w : PoolWorld) (now : Nat) :
      0 < w.creatingBackfill →
      (w.pool.closing = true ∨ w.pool.closed = true) →
      PoolStep cfg w
        { w with
          pool := (addFreshConnection w.pool now).1,
          creatingBackfill := w.creatingBackfill - 1 }
  | backfillFail (w : PoolWorld) :
      0 < w.creatingBackfill →
      PoolStep cfg w { w with creatingBackfill := w.creatingBackfill - 1 }
  | endStep (w : PoolWorld) :
      PoolStep cfg w
        { w with
          pool :=
            { w.pool with
                connections := [], available := [],
                pendingAcquires := [], timers := [],
                closing := false, closed := true } }

/-- The pool right after construction, with nothing in flight. -/
def initWorld (n : Nat) : PoolWorld :=
  { pool := initPool n, creatingAcquire := 0, creatingBackfill := 0 }

/-- A concrete pool state used to instantiate theorems: one owned session
(id 4) currently in use, two queued acquire requests (9 then 10). -/
def sampleReleaseState : PoolState :=
  { connections := [(4, ⟨0, 0, 0⟩)], available := [],
    pendingAcquires := [9, 10], timers := [9, 10], closing := false,
    closed := false, nextConn := 5, nextReq := 11 }

/-!
## Theorems

Helper lemmas first, then one theorem per claim (with a witness where the
theorem carries hypotheses).
-/

theorem int32BE_neg_one : int32BE (-1) = [255, 255, 255, 255] := by decide

theorem readInt32BE_int32BE (n : Nat) (rest : List Nat) (h : n < 2 ^ 31) :
    readInt32BE (int32BE (n : Int) ++ rest) = (n : Int) := by
  have hm : (((n : Int) % (2 ^ 32 : Int)).toNat) = n := by
    rw [Int.emod_eq_of_lt (by positivity) (by exact_mod_cast Nat.lt_of_lt_of_le h (by norm_num))]
    exact Int.toNat_natCast n
  simp only [int32BE, readInt32BE, hm]
  simp only [List.cons_append, List.nil_append, List.getD_cons_zero, List.getD_cons_succ]
  have hrec : n / 2 ^ 24 % 256 * 2 ^ 24 + n / 2 ^ 16 % 256 * 2 ^ 16 +
      n / 2 ^ 8 % 256 * 2 ^ 8 + n % 256 = n := by omega
  rw [hrec, if_pos h]

theorem negotiateLoop_head (v : Int) (stream : List Nat) :
    (negotiateLoop v stream).1.head? = some v := by
  cases stream with
  | nil => rfl
  | cons b rest =>
    cases rest with
    | nil =>
      rw [negotiateLoop.eq_def]
      dsimp only
      split_ifs <;> rfl
    | cons d rest2 =>
      rw [negotiateLoop.eq_def]
      dsimp only
      split_ifs <;> rfl

/-- C6: the client proposes `CP_VERSION_6` first (the highest of the six
known protocol versions); a reply of 'N' (0x4E) accepts and records that
version; 'M' (0x4D) consumes one ASCII-digit byte and loops with the
downgraded version, failing when it falls below `CP_VERSION_2`; 'E'
(0x45) fails terminally; any other byte is a protocol violation. -/
theorem c6_version_negotiation (stream : List Nat) (v : Int) (d b : Nat)
    (rest : List Nat)
    (hdown : (CP_VERSION_2 : Int) ≤ (d : Int) - 0x30)
    (hlow : ((b : Int) - 0x30) < (CP_VERSION_2 : Int)) :
    negotiateHandshake stream = negotiateLoop (CP_VERSION_6 : Int) stream
    ∧ (negotiateHandshake stream).1.head? = some (CP_VERSION_6 : Int)
    ∧ (CP_VERSION_1 < CP_VERSION_6 ∧ CP_VERSION_2 < CP_VERSION_6
      ∧ CP_VERSION_3 < CP_VERSION_6 ∧ CP_VERSION_4 < CP_VERSION_6
      ∧ CP_VERSION_5 < CP_VERSION_6)
    ∧ negotiateLoop v (0x4E :: rest) = ([v], .accepted v)
    ∧ negotiateLoop v (0x4D :: d :: rest)
        = (v :: (negotiateLoop ((d : Int) - 0x30) rest).1,
           (negotiateLoop ((d : Int) - 0x30) rest).2)
    ∧ negotiateLoop v (0x4D :: b :: rest) = ([v], .unsupportedVersion)
    ∧ negotiateLoop v (0x45 :: rest) = ([v], .badAttributeValue)
    ∧ (∀ x : Nat, x ≠ 0x4E → x ≠ 0x4D → x ≠ 0x45 →
        negotiateLoop v (x :: rest) = ([v], .badProtocolError)) := by
  refine ⟨rfl, negotiateLoop_head _ _, by decide, ?_, ?_, ?_, ?_, ?_⟩
  · conv_lhs => rw [negotiateLoop.eq_def]
    simp
  · have hd : ¬ (((d : Int) - 0x30) < (CP_VERSION_2 : Int)) := by omega
    conv_lhs => rw [negotiateLoop.eq_def]
    simp [hd]
  · conv_lhs => rw [negotiateLoop.eq_def]
    simp [hlow]
  · conv_lhs => rw [negotiateLoop.eq_def]
    simp
  · intro x hx1 hx2 hx3
    conv_lhs => rw [negotiateLoop.eq_def]
    simp [hx1, hx2, hx3]

theorem c6_version_negotiation_witness :
    negotiateHandshake [0x4D, 0x33, 0x4E] = negotiateLoop (CP_VERSION_6 : Int) [0x4D, 0x33, 0x4E]
    ∧ (negotiateHandshake [0x4D, 0x33, 0x4E]).1.head? = some (CP_VERSION_6 : Int)
    ∧ (CP_VERSION_1 < CP_VERSION_6 ∧ CP_VERSION_2 < CP_VERSION_6
      ∧ CP_VERSION_3 < CP_VERSION_6 ∧ CP_VERSION_4 < CP_VERSION_6
      ∧ CP_VERSION_5 < CP_VERSION_6)
    ∧ negotiateLoop 6 (0x4E :: [0x4E]) = ([6], .accepted 6)
    ∧ negotiateLoop 6 (0x4D :: 0x33 :: [0x4E])
        = (6 :: (negotiateLoop (((0x33 : Nat) : Int) - 0x30) [0x4E]).1,
           (negotiateLoop (((0x33 : Nat) : Int) - 0x30) [0x4E]).2)
    ∧ negotiateLoop 6 (0x4D :: 0x2F :: [0x4E]) = ([6], .unsupportedVersion)
    ∧ negotiateLoop 6 (0x45 :: [0x4E]) = ([6], .badAttributeValue)
    ∧ (∀ x : Nat, x ≠ 0x4E → x ≠ 0x4D → x ≠ 0x45 →
        negotiateLoop 6 (x :: [0x4E]) = ([6], .badProtocolError)) :=
  c6_version_negotiation [0x4D, 0x33, 0x4E] 6 0x33 0x2F [0x4E]
    (by decide) (by decide)

theorem negotiateSecurity_fst_eq (level level2 : Int) (tlsOk : Bool)
    (stream : List Nat) :
    (negotiateSecurity level tlsOk stream).1 = (negotiateSecurity level2 tlsOk stream).1 := by
  cases stream with
  | nil => rfl
  | cons b rest =>
    by_cases h1 : b = 0x4E
    · simp [negotiateSecurity, h1]
    · by_cases h2 : b = 0x53
      · cases tlsOk with
        | false => simp [negotiateSecurity, h1, h2]
        | true =>
          cases rest with
          | nil => simp [negotiateSecurity, h1, h2]
          | cons c rest2 =>
            by_cases h3 : c = 0x4E
            · simp [negotiateSecurity, h1, h2, h3]
            · by_cases h4 : c = 0x45
              · simp only [negotiateSecurity, h1, h2, h3, h4]
                cases readCString rest2 <;> simp
              · simp [negotiateSecurity, h1, h2, h3, h4]
      · by_cases h5 : b = 0x45
        · simp only [negotiateSecurity, h1, h2, h5]
          cases readCString rest <;> simp
        · simp [negotiateSecurity, h1, h2, h5]

/-- C1 (counterexample): with `securityLevel = 1` and a server answering
'S' (0x53) to security negotiation, the client does not reject — it
upgrades to TLS, and after the server confirms with 'N' the handshake
proceeds, so a query can later be issued on the session; in particular
`connect()` raises no interface error here. -/
theorem c1_counterexample :
    (negotiateSecurity 1 true [0x53, 0x4E]).1 = .proceed true []
    ∧ ((negotiateSecurity 1 true [0x53, 0x4E]).1).isInterfaceError = false := by
  exact ⟨rfl, rfl⟩

/-- C1 (amended): the dispatch on the server's security reply never
consults the configured security level (the outcome for any level equals
the outcome for level 1); on 'S' the client always attempts the in-place
TLS upgrade, and `connect()` rejects only if that upgrade fails — with an
operational error when the TLS layer fails, an interface error when the
post-upgrade confirmation sub-exchange fails — while a confirmed upgrade
proceeds with the handshake.  No query message is sent during security
negotiation. -/
theorem c1_security_negotiation (level : Int) (tlsOk : Bool)
    (stream rest detail rem : List Nat)
    (hmsg : readCString rest = some (detail, rem)) :
    (negotiateSecurity level tlsOk stream).1 = (negotiateSecurity 1 tlsOk stream).1
    ∧ (negotiateSecurity level false (0x53 :: rest)).1 = .tlsSocketError
    ∧ (negotiateSecurity level true (0x53 :: 0x4E :: rest)).1 = .proceed true rest
    ∧ (negotiateSecurity level true (0x53 :: 0x45 :: rest)).1
        = .sslConnectionError detail
    ∧ (SecurityOutcome.sslConnectionError detail).isInterfaceError = true
    ∧ SecurityOutcome.tlsSocketError.isInterfaceError = false := by
  refine ⟨negotiateSecurity_fst_eq level 1 tlsOk stream, ?_, ?_, ?_, rfl, rfl⟩
  · simp [negotiateSecurity]
  · simp [negotiateSecurity]
  · simp [negotiateSecurity, hmsg]

theorem c1_security_negotiation_witness :
    (negotiateSecurity 3 true [0x4E]).1 = (negotiateSecurity 1 true [0x4E]).1
    ∧ (negotiateSecurity 3 false (0x53 :: [0x41, 0])).1 = .tlsSocketError
    ∧ (negotiateSecurity 3 true (0x53 :: 0x4E :: [0x41, 0])).1
        = .proceed true [0x41, 0]
    ∧ (negotiateSecurity 3 true (0x53 :: 0x45 :: [0x41, 0])).1
        = .sslConnectionError [0x41]
    ∧ (SecurityOutcome.sslConnectionError [0x41]).isInterfaceError = true
    ∧ SecurityOutcome.tlsSocketError.isInterfaceError = false :=
  c1_security_negotiation 3 true [0x4E] [0x41, 0] [0x41] [] (by decide)

/-- C10: releasing a connection the entry map does not contain raises the
interface error ("Connection does not belong to this pool") and leaves
the whole pool state — entry map, available list and pending-acquire
queue — untouched, performing no validation, hand-off or close on the
foreign session. -/
theorem c10_release_foreign (cfg : PoolConfig) (valid : Bool) (now : Nat)
    (st : PoolState) (c : Nat) (hfor : ownsConn st c = false) :
    release cfg valid now st c = (.notOwnedError, st, []) := by
  simp [release, hfor]

theorem c10_release_foreign_witness :
    ownsConn { connections := [(0, ⟨0, 0, 0⟩)], available := [0],
               pendingAcquires := [7], timers := [7], closing := false,
               closed := false, nextConn := 1, nextReq := 8 } 5 = false
    ∧ release ⟨0, 10, true⟩ true 3
        { connections := [(0, ⟨0, 0, 0⟩)], available := [0],
          pendingAcquires := [7], timers := [7], closing := false,
          closed := false, nextConn := 1, nextReq := 8 } 5
      = (.notOwnedError,
         { connections := [(0, ⟨0, 0, 0⟩)], available := [0],
           pendingAcquires := [7], timers := [7], closing := false,
           closed := false, nextConn := 1, nextReq := 8 }, []) :=
  ⟨by decide,
   c10_release_foreign ⟨0, 10, true⟩ true 3
     { connections := [(0, ⟨0, 0, 0⟩)], available := [0],
       pendingAcquires := [7], timers := [7], closing := false,
       closed := false, nextConn := 1, nextReq := 8 } 5 (by decide)⟩

/-- C5: releasing an owned session while the pending-acquire queue is
non-empty (with return-validation, if enabled, passing) resolves the
oldest pending request with exactly that session, cancels that request's
deadline timer, and never inserts the session into the available list. -/
theorem c5_release_handoff (cfg : PoolConfig) (valid : Bool) (now : Nat)
    (st : PoolState) (c req : Nat) (rest : List Nat)
    (hown : ownsConn st c = true)
    (hvalid : cfg.validateOnReturn = true → valid = true)
    (hpend : st.pendingAcquires = req :: rest) :
    (release cfg valid now st c).1 = .resolvedPending req
    ∧ (release cfg valid now st c).2.1.pendingAcquires = rest
    ∧ (release cfg valid now st c).2.1.timers = st.timers.erase req
    ∧ (release cfg valid now st c).2.1.available = st.available
    ∧ (release cfg valid now st c).2.1.connections
        = touchLastUsed st.connections c now
    ∧ PoolAction.resolveAcquire req c ∈ (release cfg valid now st c).2.2
    ∧ PoolAction.clearDeadline req ∈ (release cfg valid now st c).2.2
    ∧ (∀ x, PoolAction.resolveAcquire req x ∈ (release cfg valid now st c).2.2
        → x = c) := by
  have hcore : releaseCore now st c
      = (.resolvedPending req,
         { st with connections := touchLastUsed st.connections c now,
                   pendingAcquires := rest, timers := st.timers.erase req },
         [.clearDeadline req, .resolveAcquire req c]) := by
    unfold releaseCore
    dsimp only
    rw [hpend]
  by_cases hv : cfg.validateOnReturn
  · have hval : valid = true := hvalid hv
    have hrel : release cfg valid now st c
        = (.resolvedPending req,
           { st with connections := touchLastUsed st.connections c now,
                     pendingAcquires := rest, timers := st.timers.erase req },
           [.validateSession c, .clearDeadline req, .resolveAcquire req c]) := by
      simp [release, hown, hv, hval, hcore]
    rw [hrel]
    refine ⟨rfl, rfl, rfl, rfl, rfl, by simp, by simp, ?_⟩
    intro x hx
    simp at hx
    exact hx
  · have hrel : release cfg valid now st c
        = (.resolvedPending req,
           { st with connections := touchLastUsed st.connections c now,
                     pendingAcquires := rest, timers := st.timers.erase req },
           [.clearDeadline req, .resolveAcquire req c]) := by
      simp [release, hown, hv, hcore]
    rw [hrel]
    refine ⟨rfl, rfl, rfl, rfl, rfl, by simp, by simp, ?_⟩
    intro x hx
    simp at hx
    exact hx

theorem c5_release_handoff_witness :
    (release ⟨0, 10, false⟩ true 5 sampleReleaseState 4).1 = .resolvedPending 9
    ∧ (release ⟨0, 10, false⟩ true 5 sampleReleaseState 4).2.1.pendingAcquires = [10]
    ∧ (release ⟨0, 10, false⟩ true 5 sampleReleaseState 4).2.1.timers
        = sampleReleaseState.timers.erase 9
    ∧ (release ⟨0, 10, false⟩ true 5 sampleReleaseState 4).2.1.available
        = sampleReleaseState.available
    ∧ (release ⟨0, 10, false⟩ true 5 sampleReleaseState 4).2.1.connections
        = touchLastUsed sampleReleaseState.connections 4 5
    ∧ PoolAction.resolveAcquire 9 4
        ∈ (release ⟨0, 10, false⟩ true 5 sampleReleaseState 4).2.2
    ∧ PoolAction.clearDeadline 9
        ∈ (release ⟨0, 10, false⟩ true 5 sampleReleaseState 4).2.2
    ∧ (∀ x, PoolAction.resolveAcquire 9 x
        ∈ (release ⟨0, 10, false⟩ true 5 sampleReleaseState 4).2.2 → x = 4) :=
  c5_release_handoff ⟨0, 10, false⟩ true 5 sampleReleaseState 4 9 [10]
    (by decide) (fun _ => rfl) (by decide)

/-- C7: a `MD5` authentication request makes the client read a 2-byte
salt and send, NUL-terminated behind a length prefix, the credential
`base64(md5(salt ++ password))` with trailing '=' padding stripped; a
`SHA256` request produces the identically shaped credential with sha256
in place of md5; and any scheme code outside the supported set
(`OK`, `PASSWORD`, `MD5`, `SHA256`) is a terminal
unsupported-authentication failure with nothing sent. -/
theorem c7_authentication (md5f sha256f : List Nat → List Nat)
    (user password : String) (s1 s2 : Nat) (rest : List Nat) (a b c d : Nat)
    (h0 : readInt32BE [a, b, c, d] ≠ (AUTH_REQ_OK : Int))
    (h3 : readInt32BE [a, b, c, d] ≠ (AUTH_REQ_PASSWORD : Int))
    (h5 : readInt32BE [a, b, c, d] ≠ (AUTH_REQ_MD5 : Int))
    (h6 : readInt32BE [a, b, c, d] ≠ (AUTH_REQ_SHA256 : Int)) :
    authenticate md5f sha256f user password
        (MESSAGE_TYPE_AUTHENTICATION :: 0 :: 0 :: 0 :: AUTH_REQ_MD5
          :: s1 :: s2 :: rest)
      = (waitForAuthOk rest,
         [credentialMessage (md5f ([s1, s2] ++ utf8Bytes password))])
    ∧ authenticate md5f sha256f user password
        (MESSAGE_TYPE_AUTHENTICATION :: 0 :: 0 :: 0 :: AUTH_REQ_SHA256
          :: s1 :: s2 :: rest)
      = (waitForAuthOk rest,
         [credentialMessage (sha256f ([s1, s2] ++ utf8Bytes password))])
    ∧ md5Password md5f user password [s1, s2]
      = dropEqPadding (base64Encode (md5f ([s1, s2] ++ utf8Bytes password)))
    ∧ sha256Password sha256f password [s1, s2]
      = dropEqPadding (base64Encode (sha256f ([s1, s2] ++ utf8Bytes password)))
    ∧ authenticate md5f sha256f user password
        (MESSAGE_TYPE_AUTHENTICATION :: a :: b :: c :: d :: rest)
      = (.unsupportedAuthType (readInt32BE [a, b, c, d]), []) := by
  refine ⟨rfl, rfl, rfl, rfl, ?_⟩
  simp only [authenticate, readInt32, MESSAGE_TYPE_AUTHENTICATION,
    MESSAGE_TYPE_ERROR_RESPONSE]
  rw [if_neg (by decide), if_neg (by decide), if_neg h0, if_neg h3, if_neg h5,
    if_neg h6]

theorem c7_authentication_witness :
    readInt32BE [0, 0, 0, 7] ≠ (AUTH_REQ_OK : Int)
    ∧ readInt32BE [0, 0, 0, 7] ≠ (AUTH_REQ_PASSWORD : Int)
    ∧ readInt32BE [0, 0, 0, 7] ≠ (AUTH_REQ_MD5 : Int)
    ∧ readInt32BE [0, 0, 0, 7] ≠ (AUTH_REQ_SHA256 : Int)
    ∧ authenticate (fun l => l ++ [1]) (fun l => l ++ [2]) "admin" "pw"
        (MESSAGE_TYPE_AUTHENTICATION :: 0 :: 0 :: 0 :: AUTH_REQ_MD5
          :: 170 :: 187 :: [82, 0, 0, 0, 0])
      = (waitForAuthOk [82, 0, 0, 0, 0],
         [credentialMessage ((fun l => l ++ [1]) ([170, 187] ++ utf8Bytes "pw"))])
    ∧ authenticate (fun l => l ++ [1]) (fun l => l ++ [2]) "admin" "pw"
        (MESSAGE_TYPE_AUTHENTICATION :: 0 :: 0 :: 0 :: 7 :: [82, 0, 0, 0, 0])
      = (.unsupportedAuthType (readInt32BE [0, 0, 0, 7]), []) := by
  have h := c7_authentication (fun l => l ++ [1]) (fun l => l ++ [2]) "admin" "pw"
    170 187 [82, 0, 0, 0, 0] 0 0 0 7
    (by decide) (by decide) (by decide) (by decide)
  exact ⟨by decide, by decide, by decide, by decide, h.1, h.2.2.2.2⟩

/-- C2: `execute(sql, params)` with a non-empty parameter list does not
perform the staged parse → bind → describe → execute → sync exchange:
the current revision substitutes literal renderings for the placeholders
and always sends one simple-query message.  The staged machinery
(`executeExtendedMessages`, reachable from the earlier revision's
dispatch `executeEarlier`) and the bind encoding — text-encoded values,
null as a 4-byte length of −1 with no payload — are present but
unreachable from `executeCurrent`. -/
theorem c2_parameterized_execute :
    executeCurrent "SELECT ? AS v".toList [.jsNum 42]
        = .simpleQuery "SELECT 42 AS v".toList
    ∧ (executeCurrent "SELECT ? AS v".toList [.jsNum 42]).isExtended = false
    ∧ executeEarlier "SELECT ? AS v".toList [.jsNum 42]
        = .extendedQuery [.parseMsg [] "SELECT $1 AS v".toList,
            .bindMsg [] [] [.jsNum 42], .describeMsg 'P' [],
            .executeMsg [] 0, .syncMsg]
    ∧ encodeBindParam .jsNull = int32BE (-1)
    ∧ int32BE (-1) = [255, 255, 255, 255]
    ∧ encodeBindParam (.jsNum 42) = int32BE 2 ++ utf8Bytes "42" := by
  refine ⟨?_, ?_, ?_, ?_, ?_, ?_⟩ <;> decide

theorem readBytes_ok_characterization (count : Nat) :
    ∀ (events : List SocketEvent) (buffer bytes buf2 : List Nat)
      (ev2 : List SocketEvent),
      readBytes count buffer events = .okRead bytes buf2 ev2 →
      bytes.length = count
      ∧ ∃ consumed : List (List Nat),
          events = consumed.map SocketEvent.dataEv ++ ev2
          ∧ bytes ++ buf2 = buffer ++ consumed.flatten
          ∧ bytes = (buffer ++ consumed.flatten).take count := by
  intro events
  induction events with
  | nil =>
    intro buffer bytes buf2 ev2 h
    rw [readBytes.eq_def] at h
    by_cases hlt : buffer.length < count
    · rw [if_pos hlt] at h
      cases h
    · rw [if_neg hlt] at h
      cases h
      refine ⟨?_, [], rfl, ?_, ?_⟩
      · rw [List.length_take]
        omega
      · simp
      · simp
  | cons e es ih =>
    intro buffer bytes buf2 ev2 h
    rw [readBytes.eq_def] at h
    by_cases hlt : buffer.length < count
    · rw [if_pos hlt] at h
      cases e with
      | dataEv chunk =>
        obtain ⟨hlen, consumed, hev, hcat, htake⟩ := ih (buffer ++ chunk) bytes buf2 ev2 h
        refine ⟨hlen, chunk :: consumed, ?_, ?_, ?_⟩
        · simp [hev]
        · simpa [List.append_assoc] using hcat
        · simpa [List.append_assoc] using htake
      | errorEv m2 => cases h
      | endEv => cases h
    · rw [if_neg hlt] at h
      cases h
      refine ⟨?_, [], rfl, ?_, ?_⟩
      · rw [List.length_take]
        omega
      · simp
      · simp

theorem readBytes_error_pending (count : Nat) (m : String) (es : List SocketEvent) :
    ∀ (chunks : List (List Nat)) (buffer : List Nat),
      (buffer ++ chunks.flatten).length < count →
      readBytes count buffer (chunks.map SocketEvent.dataEv ++ .errorEv m :: es)
        = .socketError ("Socket error: " ++ m) := by
  intro chunks
  induction chunks with
  | nil =>
    intro buffer h
    rw [readBytes.eq_def]
    rw [if_pos (by simpa using h)]
    dsimp only [List.map_nil, List.nil_append]
  | cons chunk rest ih =>
    intro buffer h
    rw [readBytes.eq_def]
    have hlt : buffer.length < count := by
      simp [List.length_append] at h
      omega
    rw [if_pos hlt]
    dsimp only [List.map_cons, List.cons_append]
    exact ih (buffer ++ chunk) (by simpa [List.append_assoc] using h)

theorem readBytes_end_pending (count : Nat) (es : List SocketEvent) :
    ∀ (chunks : List (List Nat)) (buffer : List Nat),
      (buffer ++ chunks.flatten).length < count →
      readBytes count buffer (chunks.map SocketEvent.dataEv ++ .endEv :: es)
        = .connectionClosed := by
  intro chunks
  induction chunks with
  | nil =>
    intro buffer h
    rw [readBytes.eq_def]
    rw [if_pos (by simpa using h)]
    dsimp only [List.map_nil, List.nil_append]
  | cons chunk rest ih =>
    intro buffer h
    rw [readBytes.eq_def]
    have hlt : buffer.length < count := by
      simp [List.length_append] at h
      omega
    rw [if_pos hlt]
    dsimp only [List.map_cons, List.cons_append]
    exact ih (buffer ++ chunk) (by simpa [List.append_assoc] using h)

/-- C8: a successful `readBytes(n)` returns exactly `n` bytes — never
fewer — namely the first `n` of the buffered content after the consumed
data arrivals, leaving the remainder buffered; if the buffer already
holds `n` bytes it returns at once without touching the event queue; and
a transport error or a clean remote close arriving while the read is
still short ends it with the operational or connection-closed failure
instead of returning fewer bytes than requested. -/
theorem c8_read_exactly (count : Nat) (buffer buf0 : List Nat)
    (events : List SocketEvent) (chunks : List (List Nat)) (m : String)
    (es : List SocketEvent)
    (hsat : count ≤ buf0.length)
    (hshort : (buffer ++ chunks.flatten).length < count) :
    (∀ bytes buf2 ev2, readBytes count buffer events = .okRead bytes buf2 ev2 →
        bytes.length = count
        ∧ ∃ consumed : List (List Nat),
            events = consumed.map SocketEvent.dataEv ++ ev2
            ∧ bytes ++ buf2 = buffer ++ consumed.flatten
            ∧ bytes = (buffer ++ consumed.flatten).take count)
    ∧ readBytes count buf0 events
        = .okRead (buf0.take count) (buf0.drop count) events
    ∧ readBytes count buffer (chunks.map SocketEvent.dataEv ++ .errorEv m :: es)
        = .socketError ("Socket error: " ++ m)
    ∧ readBytes count buffer (chunks.map SocketEvent.dataEv ++ .endEv :: es)
        = .connectionClosed := by
  refine ⟨fun bytes buf2 ev2 h =>
      readBytes_ok_characterization count events buffer bytes buf2 ev2 h,
    ?_,
    readBytes_error_pending count m es chunks buffer hshort,
    readBytes_end_pending count es chunks buffer hshort⟩
  rw [readBytes.eq_def, if_neg (by omega)]

theorem c8_read_exactly_witness :
    (∀ bytes buf2 ev2,
        readBytes 3 [1] [.dataEv [2, 3]] = .okRead bytes buf2 ev2 →
        bytes.length = 3
        ∧ ∃ consumed : List (List Nat),
            [SocketEvent.dataEv [2, 3]] = consumed.map SocketEvent.dataEv ++ ev2
            ∧ bytes ++ buf2 = [1] ++ consumed.flatten
            ∧ bytes = ([1] ++ consumed.flatten).take 3)
    ∧ readBytes 3 [5, 6, 7, 8] [.dataEv [2, 3]]
        = .okRead ([5, 6, 7, 8].take 3) ([5, 6, 7, 8].drop 3) [.dataEv [2, 3]]
    ∧ readBytes 3 [1] ([[9]].map SocketEvent.dataEv ++ .errorEv "boom" :: [])
        = .socketError ("Socket error: " ++ "boom")
    ∧ readBytes 3 [1] ([[9]].map SocketEvent.dataEv ++ .endEv :: [])
        = .connectionClosed :=
  c8_read_exactly 3 [1] [5, 6, 7, 8] [.dataEv [2, 3]] [[9]] "boom" []
    (by decide) (by decide)

theorem bitsOfByte_pack (b0 b1 b2 b3 b4 b5 b6 b7 : Nat)
    (h0 : b0 < 2) (h1 : b1 < 2) (h2 : b2 < 2) (h3 : b3 < 2)
    (h4 : b4 < 2) (h5 : b5 < 2) (h6 : b6 < 2) (h7 : b7 < 2) :
    bitsOfByte (b0 * 128 + b1 * 64 + b2 * 32 + b3 * 16 + b4 * 8 + b5 * 4 + b6 * 2 + b7)
      = [b0, b1, b2, b3, b4, b5, b6, b7] := by
  simp only [bitsOfByte, List.cons.injEq, and_true]
  refine ⟨?_, ?_, ?_, ?_, ?_, ?_, ?_, ?_⟩ <;> omega

theorem unpack_packBits : ∀ (bits : List Nat), (∀ b ∈ bits, b < 2) →
    8 ∣ bits.length → ((packBits bits).map bitsOfByte).flatten = bits := by
  intro bits
  induction bits using packBits.induct with
  | case1 b0 b1 b2 b3 b4 b5 b6 b7 rest ih =>
    intro hb hdvd
    simp only [packBits, List.map_cons, List.flatten_cons]
    rw [bitsOfByte_pack b0 b1 b2 b3 b4 b5 b6 b7
      (hb _ (by simp)) (hb _ (by simp)) (hb _ (by simp)) (hb _ (by simp))
      (hb _ (by simp)) (hb _ (by simp)) (hb _ (by simp)) (hb _ (by simp))]
    rw [ih (fun b hbm => hb b (by simp [hbm]))
      (by simp only [List.length_cons] at hdvd ⊢; omega)]
    rfl
  | case2 t hne =>
    intro hb hdvd
    rcases t with _ | ⟨b0, _ | ⟨b1, _ | ⟨b2, _ | ⟨b3, _ | ⟨b4, _ | ⟨b5, _ | ⟨b6, _ | ⟨b7, rest⟩⟩⟩⟩⟩⟩⟩⟩
    all_goals
      first
        | (exact (hne _ _ _ _ _ _ _ _ _ rfl).elim)
        | (simp only [List.length_cons, List.length_nil] at hdvd; omega)
        | (rw [packBits.eq_def]; simp)

theorem packBits_length : ∀ (bits : List Nat),
    (packBits bits).length = bits.length / 8 := by
  intro bits
  induction bits using packBits.induct with
  | case1 b0 b1 b2 b3 b4 b5 b6 b7 rest ih =>
    simp only [packBits, List.length_cons, ih]
    omega
  | case2 t hne =>
    rcases t with _ | ⟨b0, _ | ⟨b1, _ | ⟨b2, _ | ⟨b3, _ | ⟨b4, _ | ⟨b5, _ | ⟨b6, _ | ⟨b7, rest⟩⟩⟩⟩⟩⟩⟩⟩
    all_goals
      first
        | (exact (hne _ _ _ _ _ _ _ _ _ rfl).elim)
        | (rw [packBits.eq_def]; simp)

theorem bitmapOfCells_length (cells : List (Option (List Nat))) :
    (bitmapOfCells cells).length = (cells.length + 7) / 8 := by
  simp only [bitmapOfCells, packBits_length, List.length_append,
    List.length_map, List.length_replicate]
  omega

theorem rowBitmap_encode (cells : List (Option (List Nat))) (extra : List Nat) :
    (rowBitmap (bitmapOfCells cells ++ extra) ((cells.length + 7) / 8)).take cells.length
      = cells.map (fun c => if c.isSome then 1 else 0) := by
  have htake : (bitmapOfCells cells ++ extra).take ((cells.length + 7) / 8)
      = bitmapOfCells cells := by
    rw [← bitmapOfCells_length cells]
    exact List.take_left _ _
  have hbits : ∀ b ∈ (cells.map (fun c => if c.isSome then 1 else 0))
      ++ List.replicate ((cells.length + 7) / 8 * 8 - cells.length) 0, b < 2 := by
    intro b hbm
    rcases List.mem_append.mp hbm with h | h
    · rcases List.mem_map.mp h with ⟨c, _, rfl⟩
      by_cases hc : c.isSome <;> simp [hc]
    · rw [List.eq_of_mem_replicate h]
      omega
  have hlen : 8 ∣ ((cells.map (fun c : Option (List Nat) => if c.isSome then 1 else 0))
      ++ List.replicate ((cells.length + 7) / 8 * 8 - cells.length) 0).length := by
    simp only [List.length_append, List.length_map, List.length_replicate]
    refine ⟨(cells.length + 7) / 8, ?_⟩
    omega
  rw [rowBitmap, htake, bitmapOfCells, unpack_packBits _ hbits hlen,
    List.take_append_of_le_length (by simp), List.take_of_length_le (by simp)]

theorem parseDataRowLoop_encode :
    ∀ (cells : List (Option (List Nat))),
      (∀ v : List Nat, some v ∈ cells → v.length + 4 < 2 ^ 31) →
      ∀ (data : List Nat) (dataIdx : Nat) (rest : List Nat),
        data.drop dataIdx = (cells.map encodeCell).flatten ++ rest →
        parseDataRowLoop data (cells.map (fun c => if c.isSome then 1 else 0)) dataIdx
          = (cells, dataIdx + declaredLengthSum cells) := by
  intro cells
  induction cells with
  | nil =>
    intro hbound data dataIdx rest h
    simp [parseDataRowLoop, declaredLengthSum]
  | cons cell cs ih =>
    intro hbound data dataIdx rest h
    have hboundcs : ∀ v : List Nat, some v ∈ cs → v.length + 4 < 2 ^ 31 :=
      fun v hv => hbound v (List.mem_cons_of_mem _ hv)
    cases cell with
    | none =>
      have hdrop : data.drop dataIdx = (cs.map encodeCell).flatten ++ rest := by
        simpa [encodeCell] using h
      have hrec := ih hboundcs data dataIdx rest hdrop
      simp only [List.map_cons, Option.isSome_none, Bool.false_eq_true, if_false,
        parseDataRowLoop, eq_self_iff_true, if_true, hrec, declaredLengthSum,
        List.sum_cons, zero_add]
    | some v =>
      have hlenv : v.length + 4 < 2 ^ 31 := hbound v (List.mem_cons_self _ _)
      have hdropIdx : data.drop dataIdx
          = int32BE ((v.length : Int) + 4)
              ++ (v ++ ((cs.map encodeCell).flatten ++ rest)) := by
        simpa [encodeCell, List.append_assoc] using h
      have hread : readInt32BE (data.drop dataIdx) = (v.length : Int) + 4 := by
        rw [hdropIdx]
        have hc : ((v.length : Int) + 4) = ((v.length + 4 : Nat) : Int) := by
          push_cast
          ring
        rw [hc, readInt32BE_int32BE _ _ hlenv]
      have hdrop4 : data.drop (dataIdx + 4)
          = v ++ ((cs.map encodeCell).flatten ++ rest) := by
        rw [← List.drop_drop, hdropIdx]
        rfl
      have htoNat : (((v.length : Int) + 4) - 4).toNat = v.length := by
        omega
      have hvbuf : (data.drop (dataIdx + 4)).take v.length = v := by
        rw [hdrop4]
        exact List.take_left _ _
      have hdropNext : data.drop (dataIdx + 4 + v.length)
          = (cs.map encodeCell).flatten ++ rest := by
        rw [← List.drop_drop, hdrop4, List.drop_left]
      have hrec := ih hboundcs data (dataIdx + 4 + v.length) rest hdropNext
      simp only [List.map_cons, Option.isSome_some, if_true, parseDataRowLoop,
        if_neg (by omega : ¬ (1 : Nat) = 0), hread, htoNat, hvbuf, hrec,
        declaredLengthSum, List.sum_cons, Prod.mk.injEq]
      exact ⟨trivial, by omega⟩

theorem parseDataRowCells_encode (cells : List (Option (List Nat)))
    (hbound : ∀ v : List Nat, some v ∈ cells → v.length + 4 < 2 ^ 31) :
    parseDataRowCells (encodeDataRow cells) cells.length
      = (cells, (cells.length + 7) / 8 + declaredLengthSum cells) := by
  unfold parseDataRowCells encodeDataRow
  dsimp only
  rw [rowBitmap_encode]
  have hdrop : (bitmapOfCells cells ++ (cells.map encodeCell).flatten).drop
      ((cells.length + 7) / 8) = (cells.map encodeCell).flatten ++ [] := by
    rw [List.append_nil, ← bitmapOfCells_length cells]
    exact List.drop_left _ _
  exact parseDataRowLoop_encode cells hbound _ _ [] hdrop

theorem parseDataRowArray_encode (cells : List (Option (List Nat)))
    (hbound : ∀ v : List Nat, some v ∈ cells → v.length + 4 < 2 ^ 31)
    (α : Type) (conv : Int → List Nat → α) (fields : List FieldDesc)
    (hlen : fields.length = cells.length) :
    parseDataRowArray conv (encodeDataRow cells) fields
      = (fields.zip cells).map (fun fc => fc.2.map (conv fc.1.typeOid)) := by
  unfold parseDataRowArray
  rw [hlen, parseDataRowCells_encode cells hbound]

/-- C3: decoding an encoded data row against `k` columns reads the
`ceil(k/8)`-byte MSB-first presence bitmap and then recovers every cell
exactly: a clear bit yields `null` and consumes zero bytes past the
bitmap, a set bit consumes exactly its declared 4-byte-inclusive length
with the value being the declared length minus 4 bytes — the final
cursor is the bitmap length plus the sum of declared lengths, and the
array row decode returns the cells in order through the converter. -/
theorem c3_bitmap_row_decoding (cells : List (Option (List Nat)))
    (hbound : ∀ v : List Nat, some v ∈ cells → v.length + 4 < 2 ^ 31)
    (α : Type) (conv : Int → List Nat → α) (fields : List FieldDesc)
    (hlen : fields.length = cells.length) :
    parseDataRowCells (encodeDataRow cells) cells.length
      = (cells, (cells.length + 7) / 8 + declaredLengthSum cells)
    ∧ parseDataRowArray conv (encodeDataRow cells) fields
      = (fields.zip cells).map (fun fc => fc.2.map (conv fc.1.typeOid)) :=
  ⟨parseDataRowCells_encode cells hbound,
   parseDataRowArray_encode cells hbound α conv fields hlen⟩

theorem c3_bitmap_row_decoding_witness :
    parseDataRowCells (encodeDataRow [some [49], none, some [50, 50]]) 3
      = ([some [49], none, some [50, 50]],
         (3 + 7) / 8 + declaredLengthSum [some [49], none, some [50, 50]])
    ∧ parseDataRowArray (fun _ bs => bs)
        (encodeDataRow [some [49], none, some [50, 50]])
        [⟨"a", 23⟩, ⟨"b", 23⟩, ⟨"c", 23⟩]
      = (([⟨"a", 23⟩, ⟨"b", 23⟩, ⟨"c", 23⟩] : List FieldDesc).zip
          [some [49], none, some [50, 50]]).map
          (fun fc => fc.2.map ((fun _ bs => bs) fc.1.typeOid)) :=
  c3_bitmap_row_decoding [some [49], none, some [50, 50]]
    (by
      intro v hv
      simp only [List.mem_cons, List.not_mem_nil, or_false,
        Option.some.injEq, reduceCtorEq, false_or] at hv
      rcases hv with rfl | rfl <;> decide)
    (List Nat) (fun _ bs => bs) [⟨"a", 23⟩, ⟨"b", 23⟩, ⟨"c", 23⟩] (by decide)

theorem getObjectKey_setObjectKey {α : Type} (row : List (String × α))
    (k k2 : String) (v : α) :
    getObjectKey (setObjectKey row k v) k2
      = if k2 = k then some v else getObjectKey row k2 := by
  induction row with
  | nil =>
    by_cases h : k2 = k <;> by_cases h2 : k = k2 <;>
      simp_all [setObjectKey, getObjectKey]
  | cons p rest ih =>
    obtain ⟨k3, v3⟩ := p
    by_cases h3 : k3 = k <;> by_cases h : k2 = k <;> by_cases h23 : k3 = k2 <;>
      simp_all [setObjectKey, getObjectKey]

theorem getObjectKey_foldl {α : Type} (name : String) :
    ∀ (pairs : List (String × α)) (init : List (String × α)),
      getObjectKey (pairs.foldl (fun row pv => setObjectKey row pv.1 pv.2) init) name
        = match lastValueFor name pairs with
          | some v => some v
          | none => getObjectKey init name := by
  intro pairs
  induction pairs with
  | nil =>
    intro init
    rfl
  | cons pv rest ih =>
    intro init
    obtain ⟨k, v⟩ := pv
    simp only [List.foldl_cons]
    rw [ih]
    cases hlv : lastValueFor name rest with
    | some r => simp [lastValueFor, hlv]
    | none =>
      simp only [lastValueFor, hlv, getObjectKey_setObjectKey]
      by_cases h : k = name
      · subst h
        simp
      · have h2 : ¬ name = k := fun hh => h hh.symm
        simp [h, h2]

/-- C9: against duplicate (case-folded) column names, the
array/positional row shape preserves both values in column order, while
the named/object row shape keeps, under each name, exactly the value of
the last column bearing it. -/
theorem c9_duplicate_column_names (cells : List (Option (List Nat)))
    (hbound : ∀ v : List Nat, some v ∈ cells → v.length + 4 < 2 ^ 31)
    (α : Type) (conv : Int → List Nat → α) (fields : List FieldDesc)
    (hlen : fields.length = cells.length) (name : String) :
    parseDataRowArray conv (encodeDataRow cells) fields
      = (fields.zip cells).map (fun fc => fc.2.map (conv fc.1.typeOid))
    ∧ getObjectKey (parseDataRowObject conv (encodeDataRow cells) fields) name
      = lastValueFor name ((fields.zip cells).map
          (fun fc => (fc.1.name, fc.2.map (conv fc.1.typeOid)))) := by
  refine ⟨parseDataRowArray_encode cells hbound α conv fields hlen, ?_⟩
  unfold parseDataRowObject
  rw [hlen, parseDataRowCells_encode cells hbound]
  rw [show ((fields.zip cells).foldl (fun row fc =>
      setObjectKey row fc.1.name (fc.2.map (conv fc.1.typeOid))) [])
    = (((fields.zip cells).map (fun fc => (fc.1.name, fc.2.map (conv fc.1.typeOid)))).foldl
        (fun row pv => setObjectKey row pv.1 pv.2) []) from
    (List.foldl_map
      (fun fc : FieldDesc × Option (List Nat) => (fc.1.name, fc.2.map (conv fc.1.typeOid)))
      (fun row pv => setObjectKey row pv.1 pv.2) (fields.zip cells) []).symm]
  rw [getObjectKey_foldl]
  cases lastValueFor name ((fields.zip cells).map
      (fun fc => (fc.1.name, fc.2.map (conv fc.1.typeOid)))) <;> rfl

theorem c9_duplicate_column_names_witness :
    parseDataRowArray (fun _ bs => bs) (encodeDataRow [some [49], some [50]])
        [mkFieldDesc "V" 23, mkFieldDesc "v" 23]
      = (([mkFieldDesc "V" 23, mkFieldDesc "v" 23] : List FieldDesc).zip
          [some [49], some [50]]).map
          (fun fc => fc.2.map ((fun _ bs => bs) fc.1.typeOid))
    ∧ getObjectKey (parseDataRowObject (fun _ bs => bs)
        (encodeDataRow [some [49], some [50]])
        [mkFieldDesc "V" 23, mkFieldDesc "v" 23]) "v"
      = lastValueFor "v"
          ((([mkFieldDesc "V" 23, mkFieldDesc "v" 23] : List FieldDesc).zip
            [some [49], some [50]]).map
            (fun fc => (fc.1.name, fc.2.map ((fun _ bs => bs) fc.1.typeOid)))) :=
  c9_duplicate_column_names [some [49], some [50]]
    (by
      intro v hv
      simp only [List.mem_cons, List.not_mem_nil, or_false,
        Option.some.injEq, reduceCtorEq, false_or] at hv
      rcases hv with rfl | rfl <;> decide)
    (List Nat) (fun _ bs => bs) [mkFieldDesc "V" 23, mkFieldDesc "v" 23]
    (by decide) "v"

/-- C4 (capacity-race evaluation): the capacity check of `Pool.acquire`
and the entry-map insertion inside `Pool.createConnection` are separated
by `await conn.connect()`, so with `max = 1` two overlapping `acquire()`
calls on an empty pool both pass `connections.size < max` before either
insertion lands; when both land, `getStats` reports `total = 2`,
exceeding the configured max — refuting the claim that the total entry
count never exceeds `max` under every interleaving. -/
theorem c4_capacity_overrun :
    Relation.ReflTransGen (PoolStep ⟨0, 1, false⟩) (initWorld 0)
      { pool :=
          { connections := [((0 : Nat), (⟨0, 0, 1⟩ : ConnMeta)),
                            ((1 : Nat), (⟨0, 0, 1⟩ : ConnMeta))],
            available := [], pendingAcquires := [], timers := [],
            closing := false, closed := false, nextConn := 2, nextReq := 0 },
        creatingAcquire := 0, creatingBackfill := 0 }
    ∧ (getStats
        { connections := [((0 : Nat), (⟨0, 0, 1⟩ : ConnMeta)),
                          ((1 : Nat), (⟨0, 0, 1⟩ : ConnMeta))],
          available := [], pendingAcquires := [], timers := [],
          closing := false, closed := false, nextConn := 2, nextReq := 0 }).total = 2
    ∧ ¬ ((getStats
        { connections := [((0 : Nat), (⟨0, 0, 1⟩ : ConnMeta)),
                          ((1 : Nat), (⟨0, 0, 1⟩ : ConnMeta))],
          available := [], pendingAcquires := [], timers := [],
          closing := false, closed := false, nextConn := 2, nextReq := 0 }).total
          ≤ (⟨0, 1, false⟩ : PoolConfig).max) := by
  have h1 : PoolStep (⟨0, 1, false⟩ : PoolConfig) (initWorld 0)
      { pool := initPool 0, creatingAcquire := 1, creatingBackfill := 0 } :=
    PoolStep.acquireCreateBegin (initWorld 0) (by decide) (by decide)
  have h2 : PoolStep (⟨0, 1, false⟩ : PoolConfig)
      { pool := initPool 0, creatingAcquire := 1, creatingBackfill := 0 }
      { pool := initPool 0, creatingAcquire := 2, creatingBackfill := 0 } :=
    PoolStep.acquireCreateBegin _ (by decide) (by decide)
  have h3 : PoolStep (⟨0, 1, false⟩ : PoolConfig)
      { pool := initPool 0, creatingAcquire := 2, creatingBackfill := 0 }
      { pool :=
          { connections := [((0 : Nat), (⟨0, 0, 1⟩ : ConnMeta))],
            available := [], pendingAcquires := [], timers := [],
            closing := false, closed := false, nextConn := 1, nextReq := 0 },
        creatingAcquire := 1, creatingBackfill := 0 } :=
    PoolStep.acquireCreateLand _ 0 (by decide)
  have h4 : PoolStep (⟨0, 1, false⟩ : PoolConfig)
      { pool :=
          { connections := [((0 : Nat), (⟨0, 0, 1⟩ : ConnMeta))],
            available := [], pendingAcquires := [], timers := [],
            closing := false, closed := false, nextConn := 1, nextReq := 0 },
        creatingAcquire := 1, creatingBackfill := 0 }
      { pool :=
          { connections := [((0 : Nat), (⟨0, 0, 1⟩ : ConnMeta)),
                            ((1 : Nat), (⟨0, 0, 1⟩ : ConnMeta))],
            available := [], pendingAcquires := [], timers := [],
            closing := false, closed := false, nextConn := 2, nextReq := 0 },
        creatingAcquire := 0, creatingBackfill := 0 } :=
    PoolStep.acquireCreateLand _ 0 (by decide)
  refine ⟨?_, by decide, by decide⟩
  exact Relation.ReflTransGen.tail
    (Relation.ReflTransGen.tail
      (Relation.ReflTransGen.tail
        (Relation.ReflTransGen.tail Relation.ReflTransGen.refl h1) h2) h3) h4

end NodeNetezza
